import Mathlib

/-!
Shallow embedding of the duckpond invitation/matching core
(src/duckpond/db.py, src/duckpond/model.py, src/duckpond/server.py).

Conventions of the embedding:
* DynamoDB numeric attributes are `Int`; timestamps are integer minutes
  (the only time arithmetic in the source is the 5-minute staleness
  comparison in `find_new_conversation`).
* Each DynamoDB table is a Lean list inside the `DB` state record.
  A `query` against a secondary index becomes a list filter; the
  Invitations primary key is `(id := "invitation", number)`, so a
  `put_item` with an existing `number` replaces that row, and a query on
  the primary key returns rows sorted by `number` (descending when
  `ScanIndexForward` is false), which `sortDesc` reproduces.
* Randomness (uuid4, random.shuffle), wall-clock time, and the external
  phone parser are passed in explicitly through an `Env` record.
* Python sets are modelled as deduplicated lists; only membership and
  size of these values are ever observed.
-/

namespace Duckpond

/-- Row of the Members table (db.py `Members.add_member` item shape). -/
structure MemberRec where
  id : String
  phoneNumber : String
  created : Int
  muted : Bool
  reportCount : Int
deriving Repr, DecidableEq

/-- The pydantic `Member` model (model.py). -/
structure Member where
  id : String
  phone : String
  created : Int
  muted : Bool
deriving Repr, DecidableEq

/-- model.py `Member.from_db`: builds a `Member` from a Members-table row.
Note the source passes only `id`, `phoneNumber` and `created`, so the
pydantic default `muted = False` always applies, whatever the row said. -/
def Member.from_db (r : MemberRec) : Member :=
  { id := r.id, phone := r.phoneNumber, created := r.created, muted := false }

/-- Row of the Invitations table (db.py `Invitations.add_invitation` item
shape; the constant hash key `id = "invitation"` is left implicit). -/
structure InvitationEdge where
  inviter : String
  invitee : String
  number : Int
  created : Int
deriving Repr, DecidableEq

/-- Row of the Conversations table (db.py `Conversations.add_conversation`
item shape). -/
structure Conversation where
  id : String
  person1 : String
  person2 : String
  created : Int
  lastMessage : Int
deriving Repr, DecidableEq

/-- The persistent state: the four DynamoDB tables, with the single-row
Config table reduced to its `inviteCount` attribute. -/
@[ext] structure DB where
  membersT : List MemberRec
  invitationsT : List InvitationEdge
  conversationsT : List Conversation
  inviteCount : Int
deriving Repr, DecidableEq

/-- db.py `Members.get_by_phone_number`: PhoneNumberIndex query, first
item if any. -/
def get_by_phone_number (db : DB) (phone : String) : Option MemberRec :=
  (db.membersT.filter (fun r => r.phoneNumber == phone)).head?

/-- db.py `Members.get_by_id`: point lookup by primary key. -/
def get_by_id (db : DB) (mid : String) : Option MemberRec :=
  (db.membersT.filter (fun r => r.id == mid)).head?

/-- db.py `Members.delete_member`. -/
def delete_member (db : DB) (mid : String) : DB :=
  { db with membersT := db.membersT.filter (fun r => r.id != mid) }

/-- db.py `Members.set_muted`: SET muted on the row with the given id
(no-op when the row is absent). -/
def set_muted (db : DB) (mid : String) (m : Bool) : DB :=
  { db with membersT := db.membersT.map (fun r => if r.id == mid then { r with muted := m } else r) }

/-- db.py `Members.add_member`: refuse when a row with the phone number
exists, else insert a fresh row (uuid passed in as `fid`). -/
def add_member (db : DB) (phone : String) (fid : String) (now : Int) :
    Option MemberRec × DB :=
  match get_by_phone_number db phone with
  | some _ => (none, db)
  | none =>
    let r : MemberRec := { id := fid, phoneNumber := phone, created := now, muted := false, reportCount := 0 }
    (some r, { db with membersT := db.membersT ++ [r] })

/-- db.py `Conversations.update_conversation_last_message`: SET
lastMessage to the current time on the given conversation row. The
server never calls this operation. -/
def update_conversation_last_message (db : DB) (cid : String) (now : Int) : DB :=
  { db with conversationsT := db.conversationsT.map (fun c => if c.id == cid then { c with lastMessage := now } else c) }

/-- db.py `Conversations.add_conversation` (uuid passed in as `cid`;
`created` and `lastMessage` are both the current time). -/
def add_conversation (db : DB) (cid p1 p2 : String) (now : Int) : DB :=
  { db with conversationsT := db.conversationsT ++ [{ id := cid, person1 := p1, person2 := p2, created := now, lastMessage := now }] }

/-- db.py `Conversations.delete_conversation`: delete by primary key
(a no-op when the row is already gone, as in DynamoDB). -/
def delete_conversation (db : DB) (cid : String) : DB :=
  { db with conversationsT := db.conversationsT.filter (fun c => c.id != cid) }

/-- db.py `Conversations.get_conversations_for_member`: Person1Index
query results concatenated with Person2Index query results. -/
def get_conversations_for_member (db : DB) (mid : String) : List Conversation :=
  db.conversationsT.filter (fun c => c.person1 == mid) ++
    db.conversationsT.filter (fun c => c.person2 == mid)

/-- db.py `Config.increment_invite_count`. -/
def increment_invite_count (db : DB) (incrementBy : Int) : DB :=
  { db with inviteCount := db.inviteCount + incrementBy }

/-- db.py `Config.invite_count`. -/
def invite_count (db : DB) : Int :=
  db.inviteCount

/-- db.py `Invitations.add_invitation`: put_item keyed by
`(id = "invitation", number)`, so an existing row with the same number
is replaced. -/
def add_invitation (db : DB) (inviter invitee : String) (number now : Int) : DB :=
  { db with invitationsT := db.invitationsT.filter (fun e => e.number != number) ++ [{ inviter := inviter, invitee := invitee, number := number, created := now }] }

/-- Python `max(items, key=...)["number"] if items else 0`: the largest
`number` in the list, or 0 for an empty list. -/
def maxNumberOr0 (items : List InvitationEdge) : Int :=
  match items.map (fun e => e.number) with
  | [] => 0
  | x :: xs => xs.foldl max x

/-- db.py `Invitations.invite_position`: query InviterIndex and
InviteeIndex for rows of this member with `number` strictly above
`minN`, and combine the two maxima as `max (maxInviter - 1) maxInvitee`. -/
def invite_position (db : DB) (mid : String) (minN : Int) : Int :=
  let inviterItems :=
    db.invitationsT.filter (fun e => e.inviter == mid && decide (minN < e.number))
  let inviteeItems :=
    db.invitationsT.filter (fun e => e.invitee == mid && decide (minN < e.number))
  max (maxNumberOr0 inviterItems - 1) (maxNumberOr0 inviteeItems)

/-- Insert an edge into a list that is sorted by `number` descending. -/
def insertDesc (e : InvitationEdge) : List InvitationEdge → List InvitationEdge
  | [] => [e]
  | x :: xs => if x.number ≤ e.number then e :: x :: xs else x :: insertDesc e xs

/-- The descending-by-`number` order in which a DynamoDB query with
`ScanIndexForward=False` returns the Invitations rows. -/
def sortDesc : List InvitationEdge → List InvitationEdge
  | [] => []
  | e :: rest => insertDesc e (sortDesc rest)

/-- db.py `Invitations.last_n`: read the `max n 1` most recent edges in
descending `number` order, collect every inviter and invitee into a set
(modelled as a deduplicated list), and remove the `"system"` seed id. -/
def last_n (db : DB) (n : Int) : List String :=
  let items := (sortDesc db.invitationsT).take (max n 1).toNat
  ((items.flatMap (fun e => [e.inviter, e.invitee])).dedup).filter (fun s => s != "system")

/-! ### server.py -/

/-- server.py `N_PEOPLE`. -/
def N_PEOPLE : Int := 50

/-- Characters removed by Python str.strip (the whitespace that can
occur in an SMS body). -/
def isSpaceChar (c : Char) : Bool :=
  c == ' ' || c == '\t' || c == '\n' || c == '\r'

/-- Python `text.strip()` for ASCII whitespace, over the character list. -/
def pystrip (s : String) : String :=
  String.mk (((s.toList.dropWhile isSpaceChar).reverse.dropWhile isSpaceChar).reverse)

/-- Python `s.split(" ")` on the character list: split on each single
space, keeping empty fields, never returning an empty list. -/
def splitSp : List Char → List (List Char)
  | [] => [[]]
  | c :: cs =>
    if c == ' ' then [] :: splitSp cs
    else
      match splitSp cs with
      | t :: ts => (c :: t) :: ts
      | [] => [[c]]

/-- Python `s.split(" ")`. -/
def pysplit (s : String) : List String :=
  (splitSp s.toList).map String.mk

/-- ASCII lower-casing of one character (Python str.lower on the
command token, which is ASCII). -/
def lowerChar (c : Char) : Char :=
  if 65 ≤ c.toNat ∧ c.toNat ≤ 90 then Char.ofNat (c.toNat + 32) else c

/-- Python `s.lower()`. -/
def pylower (s : String) : String :=
  String.mk (s.toList.map lowerChar)

/-- server.py `create_duckpond_msg`. -/
def create_duckpond_msg (text : String) : String :=
  "🦆\n" ++ text

/-- server.py `INVITED_MESSAGE`, with the `phone` format argument. -/
def INVITED_MESSAGE (phone : String) : String :=
  "welcome to duckpond!\nyou were invited by " ++ phone ++ ".\njust reply \"stop\" to leave."

/-- server.py `INTRO_MESSAGE`, with the `n` and `spot` format arguments. -/
def INTRO_MESSAGE (n spot : Int) : String :=
  "you\x27re one of " ++ toString n ++ " people in the invite-only duckpond.\nwrite a msg to talk to a random member.\nsend \"next\" to talk to someone else, \"mute\" to stop talking, or \"report\" for jerks.\n\nyou\x27re in spot #" ++ toString spot ++ ". #" ++ toString n ++ " gets booted when someone new joins.\ninvite someone to stay on top: \"invite <phone #>\".\n\"help\" and \"about\" for more."

/-- server.py `MORE_HELP`. -/
def MORE_HELP : String :=
  "\"spot\" to view your spot.\n\"intro\" to show welcome message.\n\"about\" for more info on duckpond."

/-- Result of parsing a phone number (the parts of a
`phonenumbers.parse` result that server.py consumes). -/
structure ParsedPhone where
  countryCode : Int
  e164 : String
deriving Repr, DecidableEq

/-- The ambient nondeterminism of one request: current time (integer
minutes), the uuids that uuid4 would mint, the permutation that
random.shuffle would apply, and the external phone parser. -/
structure Env where
  now : Int
  freshMemberId : String
  freshConvId : String
  shuffle : List String → List String
  parsePhone : String → Option ParsedPhone

/-- One outbound transport message (a `client.messages.create` call). -/
structure Outbound where
  dest : String
  body : String
deriving Repr, DecidableEq

/-- The observable outcome of `handle_command`: the database state, the
returned reply (None or text), and the outbound messages sent. -/
@[ext] structure HandleResult where
  db : DB
  reply : Option String
  outbound : List Outbound
deriving Repr, DecidableEq

/-- The repeated spot computation of server.py (lines 148-152, 163-167,
222-226, 239-243). -/
def spot_position (db : DB) (mid : String) : Int :=
  invite_count db - invite_position db mid (max (invite_count db - N_PEOPLE) 1) + 1

/-- The candidate pool of server.py `find_new_conversation` lines 57-60:
recent participants minus the caller and, when given, the last partner. -/
def validIds (db : DB) (memberId : String) (lastMid : Option String) : List String :=
  let ids := (last_n db (invite_count db)).filter (fun s => s != memberId)
  match lastMid with
  | some l => ids.filter (fun s => s != l)
  | none => ids

/-- The staleness test of server.py `find_new_conversation` lines 73-81:
some conversation of the candidate has a lastMessage older than 5
minutes. -/
def staleAny (db : DB) (now : Int) (mid : String) : Bool :=
  (get_conversations_for_member db mid).any (fun c => decide (c.lastMessage < now - 5))

/-- The candidate loop of server.py `find_new_conversation` lines 63-84:
skip candidates whose directory row is gone or whose parsed Member is
muted, return None outright on any stale conversation of an inspected
candidate, else pair up with the first acceptable candidate. -/
def tryCandidates (db : DB) (memberId : String) (now : Int) (fid : String) :
    List String → Option (DB × String)
  | [] => none
  | mid :: rest =>
    match get_by_id db mid with
    | none => tryCandidates db memberId now fid rest
    | some r =>
      if (Member.from_db r).muted then tryCandidates db memberId now fid rest
      else if staleAny db now mid then none
      else some (add_conversation db fid memberId mid now, mid)

/-- server.py `find_new_conversation`: shuffle the candidate pool and
run the candidate loop; `some (db2, mid)` means a conversation with
`mid` was created, `none` means no state was changed. -/
def find_new_conversation (env : Env) (db : DB) (member : Member)
    (lastMid : Option String) : Option (DB × String) :=
  tryCandidates db member.id env.now env.freshConvId
    (env.shuffle (validIds db member.id lastMid))

/-- The unconditional warning appended by the `spot` branch (server.py
guards the append with a literal `if True`). -/
def spot_warning : String :=
  "\nyou\x27re <5 spots from the end.\ninvite someone to stay in!"

/-- server.py `handle_command` lines 176-263: the shared fall-through
flow (the `next` handling, unmute, continue-or-match, notifications and
forwarding), reached for `stop`, `next` and unrecognized commands. -/
def fallthrough (env : Env) (db : DB) (member : Member) (command text : String) :
    HandleResult :=
  let send_text := !(command == "next")
  let nextConvs := if command == "next" then get_conversations_for_member db member.id else []
  let last_conversation_id : Option String :=
    match nextConvs.getLast? with
    | some lc => some (if lc.person1 != member.id then lc.person1 else lc.person2)
    | none => none
  let db := nextConvs.foldl (fun d c => delete_conversation d c.id) db
  let current_conversations := if nextConvs.isEmpty then get_conversations_for_member db member.id else []
  let db := set_muted db member.id false
  match current_conversations with
  | cc :: _ =>
    let mid := if member.id == cc.person2 then cc.person1 else cc.person2
    (match get_by_id db mid with
     | none => { db := db, reply := some "quack! something went wrong.", outbound := [] }
     | some orec =>
       let other := Member.from_db orec
       { db := db, reply := none, outbound := if send_text then [{ dest := other.phone, body := text }] else [] })
  | [] =>
    match find_new_conversation env db member last_conversation_id with
    | none => { db := db, reply := some "quack! no one to talk to right now. try again soon.", outbound := [] }
    | some (db2, mid) =>
      let response := "now talking to #" ++ toString (spot_position db2 mid) ++ "."
      match get_by_id db2 mid with
      | none => { db := db2, reply := some "quack! something went wrong.", outbound := [] }
      | some orec =>
        let other := Member.from_db orec
        let notif : Outbound := { dest := other.phone, body := create_duckpond_msg ("#" ++ toString (spot_position db2 member.id) ++ " started a conversation with you.") }
        { db := db2, reply := some response, outbound := notif :: (if send_text then [{ dest := other.phone, body := text }] else []) }

/-- Which member id the `invite` branch ends up checking against the
recency window: the existing row for the phone number when there is
one, else the id of the freshly created row. -/
def resolvedInviteeId (env : Env) (db : DB) (e164 : String) : String :=
  match get_by_phone_number db e164 with
  | some r => r.id
  | none => env.freshMemberId

/-- server.py `handle_command` lines 101-140: the `invite <phone>`
branch. The `(none, db)` case of the member resolution models the
Python crash that `Member.from_db(False)` would raise; it is
unreachable because `add_member` only refuses when the phone lookup
succeeds. -/
def handle_invite (env : Env) (db : DB) (member : Member) (args : List String) :
    HandleResult :=
  if args.length < 1 then { db := db, reply := some "usage: invite <phone #>", outbound := [] }
  else
    let cmd_number := String.intercalate " " args
    match env.parsePhone cmd_number with
    | none => { db := db, reply := some "quack! having trouble.\ntry format xxx-xxx-xxxx.", outbound := [] }
    | some pn =>
      if pn.countryCode != 1 then { db := db, reply := some "quack! phone # must be inside the us.", outbound := [] }
      else
        let e164 := pn.e164
        let resolved : Option MemberRec × DB :=
          match get_by_phone_number db e164 with
          | some r => (some r, db)
          | none => add_member db e164 env.freshMemberId env.now
        match resolved with
        | (none, db) => { db := db, reply := some "quack! something went wrong.", outbound := [] }
        | (some r, db) =>
          let invite_member := Member.from_db r
          if (last_n db N_PEOPLE).contains invite_member.id then
            { db := db, reply := some "quack!\nthey\x27ve already been invited.", outbound := [] }
          else
            let db := increment_invite_count db 2
            let db := add_invitation db member.id invite_member.id (invite_count db) env.now
            let welcome : Outbound := { dest := invite_member.phone, body := create_duckpond_msg (INVITED_MESSAGE member.phone ++ "\n\n" ++ INTRO_MESSAGE N_PEOPLE 1) }
            { db := db, reply := some ("invited " ++ e164 ++ " to duckpond.\nyou\x27re now in spot #2."), outbound := [welcome] }

/-- server.py `handle_command`: tokenize the text, handle a missing
member, run the command dispatch (the `stop` branch has no return and
so falls through with every unrecognized command), ending in
`fallthrough` unless a branch returned. -/
def handle_command (env : Env) (db : DB) (text : String) (memberOpt : Option Member) :
    HandleResult :=
  match memberOpt with
  | none => { db := db, reply := some "quack!\nyou\x27re not in duckpond right now. find someone to invite you.", outbound := [] }
  | some member =>
    let tokens := pysplit (pystrip text)
    let command := pylower (tokens.headD "")
    let args := tokens.tail
    let db := if command == "stop" then increment_invite_count (delete_member db member.id) (-1) else db
    if command == "invite" then
      handle_invite env db member args
    else if command == "report" then
      let convs := get_conversations_for_member db member.id
      let db := convs.foldl (fun d c => delete_conversation d c.id) db
      { db := db, reply := some "no room in the pond for bad ducks.\nthx for reporting.", outbound := [] }
    else if command == "spot" then
      { db := db, reply := some (("you\x27re in spot #" ++ toString (spot_position db member.id) ++ " of " ++ toString (invite_count db) ++ ".") ++ (if true then spot_warning else "")), outbound := [] }
    else if command == "help" then
      if args.length == 1 && args.headD "" == "2" then
        { db := db, reply := some MORE_HELP, outbound := [] }
      else
        { db := db, reply := none, outbound := [] }
    else if command == "intro" then
      { db := db, reply := some (INTRO_MESSAGE N_PEOPLE (spot_position db member.id)), outbound := [] }
    else if command == "mute" then
      let convs := get_conversations_for_member db member.id
      let db := convs.foldl (fun d c => delete_conversation d c.id) db
      let db := set_muted db member.id true
      { db := db, reply := some "you\x27ve muted duckpond.\nsend another message to jump back in.", outbound := [] }
    else
      fallthrough env db member command text

/-- The spec operation `recordInvitation` as server.py performs it
(lines 122-126): increment the counter by 2, then append an edge whose
sequence number is the post-increment counter value. -/
def recordInvitation (db : DB) (inviter invitee : String) (now : Int) : DB :=
  let db := increment_invite_count db 2
  add_invitation db inviter invitee (invite_count db) now

/-! ### Definitions taken from the spec wording, for comparison -/

/-- The largest element of a list of sequence numbers, as an `Option`. -/
def maxSeq? (nums : List Int) : Option Int :=
  nums.foldr (fun x acc => match acc with | none => some x | some y => some (max x y)) none

/-- Following the spec wording for `rank`: the highest sequence number
in the list, or 0 when there is none. -/
def highestOr0 (nums : List Int) : Int :=
  (maxSeq? nums).getD 0

/-- Following the spec wording for `rank(memberId, minSequenceExclusive)`:
`maxAsInviter` is the highest `sequenceNumber` among edges with this
member as inviter and `sequenceNumber > minN` (0 if none),
`maxAsInvitee` analogously, and the result is
`max (maxAsInviter - 1) maxAsInvitee`. -/
def rankSpec (db : DB) (mid : String) (minN : Int) : Int :=
  let maxAsInviter := highestOr0 ((db.invitationsT.filter (fun e => e.inviter == mid && decide (minN < e.number))).map (fun e => e.number))
  let maxAsInvitee := highestOr0 ((db.invitationsT.filter (fun e => e.invitee == mid && decide (minN < e.number))).map (fun e => e.number))
  max (maxAsInviter - 1) maxAsInvitee

/-- The sequence numbers `[2, 4, ..., 2n]`. -/
def seqNums (n : Nat) : List Int :=
  (List.range n).map (fun i : Nat => 2 * (i : Int) + 2)

/-! ### Concrete fixtures for witnesses and counterexamples -/

/-- A member row. -/
def memA : MemberRec :=
  { id := "a", phoneNumber := "+15550001", created := 0, muted := false, reportCount := 0 }

/-- Another member row. -/
def memB : MemberRec :=
  { id := "b", phoneNumber := "+15550002", created := 0, muted := false, reportCount := 0 }

/-- The parsed Member for `memA`. -/
def mA : Member := Member.from_db memA

/-- An environment with identity shuffle and a failing phone parser. -/
def envPlain : Env :=
  { now := 100, freshMemberId := "fm", freshConvId := "fc", shuffle := id, parsePhone := fun _ => none }

/-- A conversation between `memA` and `memB` last touched at time 0. -/
def convAB : Conversation :=
  { id := "c1", person1 := "a", person2 := "b", created := 0, lastMessage := 0 }

/-- State for the forwarding scenario: two members mid-conversation. -/
def dbFwd : DB :=
  { membersT := [memA, memB], invitationsT := [], conversationsT := [convAB], inviteCount := 0 }

/-- State with a single member and nothing else. -/
def dbLone : DB :=
  { membersT := [memA], invitationsT := [], conversationsT := [], inviteCount := 0 }

/-- State with one ledger edge between two members. -/
def dbOneEdge : DB :=
  { membersT := [memA, memB], invitationsT := [{ inviter := "a", invitee := "b", number := 2, created := 0 }], conversationsT := [], inviteCount := 2 }

/-- Environment for the staleness scenario, 10 minutes after the only
conversation was touched. -/
def envStale : Env :=
  { now := 10, freshMemberId := "fm", freshConvId := "fc", shuffle := id, parsePhone := fun _ => none }

/-- Member record for the caller X of the staleness scenario. -/
def memX : MemberRec :=
  { id := "x", phoneNumber := "+15550009", created := 0, muted := false, reportCount := 0 }

/-- Member record for the candidate Y of the staleness scenario. -/
def memY : MemberRec :=
  { id := "y", phoneNumber := "+15550008", created := 0, muted := false, reportCount := 0 }

/-- State for the staleness scenario: the candidate pool for X consists
of Y alone, and Y has one conversation with `lastMessage` 10 minutes
in the past. -/
def dbStale : DB :=
  { membersT := [memX, memY], invitationsT := [{ inviter := "x", invitee := "y", number := 2, created := 0 }], conversationsT := [{ id := "cy", person1 := "y", person2 := "z", created := 0, lastMessage := 0 }], inviteCount := 2 }

/-- The parsed Member for `memX`. -/
def mX : Member := Member.from_db memX

/-- Environment whose phone parser resolves one US number. -/
def envInvite : Env :=
  { now := 100, freshMemberId := "f", freshConvId := "fc", shuffle := id, parsePhone := fun s => if s == "555-0002" then some { countryCode := 1, e164 := "+15550002" } else none }

/-- The empty initial state with counter 0. -/
def emptyDB : DB :=
  { membersT := [], invitationsT := [], conversationsT := [], inviteCount := 0 }

/-- The spec scenario state: from counter 0, A invites B, then B
invites C. -/
def dbScenario : DB :=
  recordInvitation (recordInvitation emptyDB "A" "B" 0) "B" "C" 0

/-! ### Helper lemmas -/

theorem maxSeq?_cons (x : Int) (xs : List Int) :
    maxSeq? (x :: xs) = some ((maxSeq? xs).elim x (fun y => max x y)) := by
  cases h : maxSeq? xs <;> simp [maxSeq?] at h ⊢ <;> rw [h]

theorem foldl_max_eq_maxSeq? (xs : List Int) (x : Int) :
    xs.foldl max x = (maxSeq? xs).elim x (fun y => max x y) := by
  induction xs generalizing x with
  | nil => simp [maxSeq?]
  | cons a xs ih =>
    rw [List.foldl_cons, ih, maxSeq?_cons]
    cases h : maxSeq? xs <;> simp [max_assoc]

theorem maxNumberOr0_eq_highestOr0 (items : List InvitationEdge) :
    maxNumberOr0 items = highestOr0 (items.map (fun e => e.number)) := by
  cases items with
  | nil => rfl
  | cons e es =>
    show (es.map (fun e => e.number)).foldl max e.number = _
    rw [highestOr0, List.map_cons, maxSeq?_cons, Option.getD_some]
    exact foldl_max_eq_maxSeq? _ _

theorem deleteAll_eq (l : List Conversation) (db : DB) :
    l.foldl (fun d c => delete_conversation d c.id) db =
      { db with conversationsT := db.conversationsT.filter (fun c => l.all (fun x => c.id != x.id)) } := by
  induction l generalizing db with
  | nil => simp
  | cons x l ih =>
    rw [List.foldl_cons, ih]
    refine DB.ext rfl rfl ?_ rfl
    show ((delete_conversation db x.id).conversationsT.filter (fun c => l.all (fun y => c.id != y.id))) = _
    rw [delete_conversation, List.filter_filter]
    exact List.filter_congr (fun c _ => by rw [List.all_cons, Bool.and_comm])

theorem forMember_deleteAll (db : DB) (mid : String) :
    get_conversations_for_member
      ((get_conversations_for_member db mid).foldl (fun d c => delete_conversation d c.id) db) mid = [] := by
  rw [deleteAll_eq]
  show List.filter _ (List.filter _ _) ++ List.filter _ (List.filter _ _) = []
  rw [List.filter_filter, List.filter_filter, List.append_eq_nil]
  constructor <;>
  · rw [List.filter_eq_nil_iff]
    intro c hc hcontra
    rw [Bool.and_eq_true, List.all_eq_true] at hcontra
    refine absurd (hcontra.2 c ?_) (by simp)
    · rw [get_conversations_for_member, List.mem_append]
      first
      | exact Or.inl (List.mem_filter.mpr ⟨hc, hcontra.1⟩)
      | exact Or.inr (List.mem_filter.mpr ⟨hc, hcontra.1⟩)

theorem set_muted_conversations (db : DB) (mid : String) (b : Bool) :
    (set_muted db mid b).conversationsT = db.conversationsT := rfl

theorem set_muted_idem (db : DB) (mid : String) (b : Bool) :
    set_muted (set_muted db mid b) mid b = set_muted db mid b := by
  refine DB.ext ?_ rfl rfl rfl
  show (db.membersT.map _).map _ = db.membersT.map _
  rw [List.map_map]
  refine List.map_congr_left (fun r _ => ?_)
  by_cases h : r.id = mid <;> simp [h]

theorem set_muted_all_flagged (db : DB) (mid : String) :
    ((set_muted db mid true).membersT.all (fun r => !(r.id == mid) || r.muted)) = true := by
  rw [List.all_eq_true]
  intro r hr
  rw [set_muted] at hr
  obtain ⟨r0, _, rfl⟩ := List.mem_map.mp hr
  by_cases h : r0.id = mid <;> simp [h]

theorem handle_mute_eq (env : Env) (db : DB) (m : Member) :
    handle_command env db "mute" (some m) =
      { db := set_muted ((get_conversations_for_member db m.id).foldl (fun d c => delete_conversation d c.id) db) m.id true,
        reply := some "you\x27ve muted duckpond.\nsend another message to jump back in.",
        outbound := [] } := rfl

theorem length_flatMap_pair (l : List InvitationEdge) :
    (l.flatMap (fun e => [e.inviter, e.invitee])).length = 2 * l.length := by
  induction l with
  | nil => rfl
  | cons e es ih =>
    rw [List.flatMap_cons, List.length_append, ih]
    show 2 + 2 * es.length = 2 * (es.length + 1)
    omega

theorem seqNums_succ (n : Nat) : seqNums (n + 1) = seqNums n ++ [2 * (n : Int) + 2] := by
  rw [seqNums, seqNums, List.range_succ, List.map_append]
  rfl

theorem seqNums_mem_lt (n : Nat) (x : Int) (hx : x ∈ seqNums n) : x < 2 * (n : Int) + 2 := by
  rw [seqNums] at hx
  obtain ⟨i, hi, rfl⟩ := List.mem_map.mp hx
  rw [List.mem_range] at hi
  omega

theorem record_chain (ps : List (String × String)) (db : DB) (n : Nat)
    (hc : db.inviteCount = 2 * (n : Int))
    (hm : db.invitationsT.map (fun e => e.number) = seqNums n) :
    (ps.foldl (fun d p => recordInvitation d p.1 p.2 0) db).inviteCount = 2 * ((n + ps.length : Nat) : Int) ∧
    (ps.foldl (fun d p => recordInvitation d p.1 p.2 0) db).invitationsT.map (fun e => e.number) = seqNums (n + ps.length) := by
  induction ps generalizing db n with
  | nil => simpa using ⟨hc, hm⟩
  | cons p ps ih =>
    rw [List.foldl_cons]
    have hstep1 : (recordInvitation db p.1 p.2 0).inviteCount = 2 * ((n + 1 : Nat) : Int) := by
      show db.inviteCount + 2 = _
      rw [hc]; push_cast; ring
    have hfil : db.invitationsT.filter (fun e => e.number != db.inviteCount + 2) = db.invitationsT := by
      refine List.filter_eq_self.mpr (fun e he => ?_)
      have : e.number ∈ seqNums n := hm ▸ List.mem_map_of_mem (fun e : InvitationEdge => e.number) he
      have := seqNums_mem_lt n e.number this
      simp only [bne_iff_ne, ne_eq, hc]
      omega
    have hstep2 : (recordInvitation db p.1 p.2 0).invitationsT.map (fun e => e.number) = seqNums (n + 1) := by
      show (db.invitationsT.filter (fun e : InvitationEdge => e.number != db.inviteCount + 2) ++ [({ inviter := p.1, invitee := p.2, number := db.inviteCount + 2, created := 0 } : InvitationEdge)]).map (fun e : InvitationEdge => e.number) = seqNums (n + 1)
      rw [hfil, List.map_append, hm, seqNums_succ]
      show seqNums n ++ [db.inviteCount + 2] = seqNums n ++ [2 * (n : Int) + 2]
      rw [hc]
    have := ih (recordInvitation db p.1 p.2 0) (n + 1) hstep1 hstep2
    have hlen : n + 1 + ps.length = n + (p :: ps).length := by
      rw [List.length_cons]; omega
    rw [hlen] at this
    exact this

theorem tryCandidates_stale (db : DB) (memberId : String) (now : Int) (fid : String)
    (pre post : List String) (c : String)
    (hskip : ∀ x ∈ pre, (get_by_id db x).elim true (fun r => (Member.from_db r).muted) = true)
    (hc : ∃ r, get_by_id db c = some r)
    (hstale : staleAny db now c = true) :
    tryCandidates db memberId now fid (pre ++ c :: post) = none := by
  induction pre with
  | nil =>
    obtain ⟨r, hr⟩ := hc
    simp only [List.nil_append, tryCandidates, hr, Member.from_db, Bool.false_eq_true,
      if_false, hstale, if_true]
  | cons x pre ih =>
    have hx := hskip x (List.mem_cons_self x pre)
    have hrest : ∀ y ∈ pre, (get_by_id db y).elim true (fun r => (Member.from_db r).muted) = true :=
      fun y hy => hskip y (List.mem_cons_of_mem x hy)
    rw [List.cons_append]
    cases hgx : get_by_id db x with
    | none => simp only [tryCandidates, hgx]; exact ih hrest
    | some r =>
      rw [hgx] at hx
      simp only [Option.elim] at hx
      simp only [tryCandidates, hgx, hx, if_true]
      exact ih hrest

theorem last_n_contains_system (db : DB) (n : Int) :
    (last_n db n).contains "system" = false := by
  cases h : (last_n db n).contains "system" with
  | false => rfl
  | true =>
    exfalso
    have hm : "system" ∈ last_n db n := List.elem_iff.mp h
    have := (List.mem_filter.mp hm).2
    simp at this

theorem last_n_length_le (db : DB) (n : Int) :
    ((last_n db n).length : Int) ≤ 2 * max n 1 := by
  have h1 : (last_n db n).length ≤ ((((sortDesc db.invitationsT).take (max n 1).toNat).flatMap (fun e => [e.inviter, e.invitee])).dedup).length :=
    List.length_filter_le _ _
  have h2 := (List.dedup_sublist (((sortDesc db.invitationsT).take (max n 1).toNat).flatMap (fun e => [e.inviter, e.invitee]))).length_le
  have h3 := length_flatMap_pair ((sortDesc db.invitationsT).take (max n 1).toNat)
  have h4 : ((sortDesc db.invitationsT).take (max n 1).toNat).length ≤ (max n 1).toNat := by
    rw [List.length_take]; exact min_le_left _ _
  have h5 : ((max n 1).toNat : Int) = max n 1 :=
    Int.toNat_of_nonneg (le_trans (by norm_num) (le_max_right n 1))
  have hN : (last_n db n).length ≤ 2 * (max n 1).toNat := by omega
  have := (Int.ofNat_le.mpr hN)
  push_cast at this
  omega

/-! ### Claims -/

/-- C1: for every member id and every bound, `invite_position` returns
`max (maxAsInviter - 1) maxAsInvitee`, where `maxAsInviter` is the
highest sequence number among ledger edges with this member as inviter
and sequence number strictly above the bound (0 when there is none) and
`maxAsInvitee` is the analogous maximum over edges with this member as
invitee. -/
theorem C1_invite_position_is_spec_rank (db : DB) (mid : String) (minN : Int) :
    invite_position db mid minN = rankSpec db mid minN := by
  rw [invite_position, rankSpec, maxNumberOr0_eq_highestOr0, maxNumberOr0_eq_highestOr0]

/-- C1 witness: the rank formula evaluated at a concrete state. -/
theorem C1_witness :
    invite_position dbScenario "B" 1 = rankSpec dbScenario "B" 1 ∧ rankSpec dbScenario "B" 1 = 3 :=
  ⟨C1_invite_position_is_spec_rank dbScenario "B" 1, by decide⟩

/-- C2: from a fresh state with counter 0, every serial sequence of
`recordInvitation` calls increments the counter by 2 per call and
appends an edge numbered with the post-increment counter value, so
after n calls the counter is 2n and the ledger sequence numbers are
exactly [2, 4, ..., 2n] with no duplicates or gaps. -/
theorem C2_recordInvitation_sequence_numbers (ms : List MemberRec) (cs : List Conversation)
    (ps : List (String × String)) :
    (∀ (d : DB) (i e : String) (t : Int), (recordInvitation d i e t).inviteCount = d.inviteCount + 2) ∧
    (ps.foldl (fun d p => recordInvitation d p.1 p.2 0) { membersT := ms, invitationsT := [], conversationsT := cs, inviteCount := 0 }).inviteCount = 2 * (ps.length : Int) ∧
    (ps.foldl (fun d p => recordInvitation d p.1 p.2 0) { membersT := ms, invitationsT := [], conversationsT := cs, inviteCount := 0 }).invitationsT.map (fun e => e.number) = seqNums ps.length := by
  refine ⟨fun d i e t => rfl, ?_⟩
  have h := record_chain ps { membersT := ms, invitationsT := [], conversationsT := cs, inviteCount := 0 } 0 (by norm_num) rfl
  simpa using h

/-- C3: whenever the shuffled candidate pool leads `find_new_conversation`
to inspect a candidate (everyone before it is skipped for a missing
directory row or a muted parsed Member, the candidate itself resolves)
and some existing conversation of that candidate is older than the
5-minute staleness threshold, the whole search aborts with no partner
and no conversation is created. -/
theorem C3_stale_conversation_aborts_search (env : Env) (db : DB) (m : Member)
    (lastMid : Option String) (pre post : List String) (c : String)
    (horder : env.shuffle (validIds db m.id lastMid) = pre ++ c :: post)
    (hskip : ∀ x ∈ pre, (get_by_id db x).elim true (fun r => (Member.from_db r).muted) = true)
    (hc : ∃ r, get_by_id db c = some r)
    (hstale : staleAny db env.now c = true) :
    find_new_conversation env db m lastMid = none := by
  rw [find_new_conversation, horder]
  exact tryCandidates_stale db m.id env.now env.freshConvId pre post c hskip hc hstale

/-- C3 witness: the pool for X contains only Y, Y has one conversation
whose lastMessage is 10 minutes old, and the search returns no partner. -/
theorem C3_witness : find_new_conversation envStale dbStale mX none = none := by
  refine C3_stale_conversation_aborts_search envStale dbStale mX none [] [] "y" rfl ?_ ⟨memY, rfl⟩ (by decide)
  intro x hx
  cases hx

/-- C4 counterexample: the claim says `recentParticipants k` has size at
most 2k for every k greater than or equal to 0, but at k = 0 on a
one-edge ledger the result has size 2, because `last_n` reads
`max k 1 = 1` edge. -/
theorem C4_counterexample : ¬ (((last_n dbOneEdge 0).length : Int) ≤ 2 * (0 : Int)) := by
  decide

/-- C4 amended: `recentParticipants k` (`last_n`) never contains the
reserved identifier system, and its size is at most `2 * max k 1`,
since the query reads the `max k 1` most recent edges. -/
theorem C4_amended_recentParticipants_bound (db : DB) (n : Int) :
    (last_n db n).contains "system" = false ∧ ((last_n db n).length : Int) ≤ 2 * max n 1 :=
  ⟨last_n_contains_system db n, last_n_length_le db n⟩

/-- C5: a raw text forwarded inside an existing conversation is sent to
the partner, yet the conversation row (in particular its lastMessage
attribute) is left unchanged: the server never calls
`update_conversation_last_message`, so lastMessageAt does not update on
forwarded messages as the spec requires. -/
theorem C5_forwarding_leaves_lastMessage :
    (handle_command envPlain dbFwd "hello" (some mA)).outbound = [{ dest := "+15550002", body := "hello" }] ∧
    (handle_command envPlain dbFwd "hello" (some mA)).db.conversationsT = [convAB] ∧
    convAB.lastMessage = 0 ∧ envPlain.now = 100 := by
  exact ⟨rfl, rfl, rfl, rfl⟩

/-- C6 counterexample: executing `mute` does not hand control to the
default fall-through flow after its own effects; on a concrete state
the actual result (confirmation reply, member muted) differs from
running the fall-through flow on the post-mute state (which would
unmute and answer that nobody is available). -/
theorem C6_counterexample_mute_early_return :
    handle_command envPlain dbLone "mute" (some mA) ≠
      fallthrough envPlain { membersT := [{ memA with muted := true }], invitationsT := [], conversationsT := [], inviteCount := 0 } mA "mute" "mute" := by
  decide

/-- C6 amended: after `stop` and `next` control reaches the
default/fall-through flow (for `stop`, on the state with the member
deleted and the counter decremented), but `mute` returns its
confirmation immediately and leaves the member muted, never reaching
the fall-through unmute. -/
theorem C6_amended_stop_next_fall_through (env : Env) (db : DB) (m : Member) :
    handle_command env db "stop" (some m) = fallthrough env (increment_invite_count (delete_member db m.id) (-1)) m "stop" "stop" ∧
    handle_command env db "next" (some m) = fallthrough env db m "next" "next" ∧
    (handle_command env db "mute" (some m)).reply = some "you\x27ve muted duckpond.\nsend another message to jump back in." ∧
    ((handle_command env db "mute" (some m)).db.membersT.all (fun r => !(r.id == m.id) || r.muted)) = true := by
  refine ⟨rfl, rfl, rfl, ?_⟩
  rw [handle_mute_eq]
  exact set_muted_all_flagged _ _

/-- C7: the `spot` command replies with position
`totalCount - rank(member, max(totalCount - 50, 1)) + 1`; in the
scenario reached from counter 0 by A inviting B and then B inviting C,
the counter is 4, `rank(B, 1) = 3`, and the position of B is 2. -/
theorem C7_spot_formula_and_scenario :
    (∀ (env : Env) (db : DB) (m : Member),
      handle_command env db "spot" (some m) =
        { db := db,
          reply := some (("you\x27re in spot #" ++ toString (invite_count db - invite_position db m.id (max (invite_count db - 50) 1) + 1) ++ " of " ++ toString (invite_count db) ++ ".") ++ "\nyou\x27re <5 spots from the end.\ninvite someone to stay in!"),
          outbound := [] }) ∧
    invite_count (recordInvitation emptyDB "A" "B" 0) = 2 ∧
    dbScenario.invitationsT.map (fun e => e.number) = [2, 4] ∧
    invite_count dbScenario = 4 ∧
    invite_position dbScenario "B" 1 = 3 ∧
    invite_count dbScenario - invite_position dbScenario "B" (max (invite_count dbScenario - 50) 1) + 1 = 2 := by
  exact ⟨fun env db m => rfl, by decide, by decide, by decide, by decide, by decide⟩

/-- C8: running `mute` twice gives the same result as running it once;
after one `mute` the member has no conversations and is flagged muted,
and deleting an already-deleted conversation is a no-op. -/
theorem C8_mute_is_idempotent (env : Env) (db : DB) (m : Member) :
    handle_command env (handle_command env db "mute" (some m)).db "mute" (some m) = handle_command env db "mute" (some m) ∧
    get_conversations_for_member (handle_command env db "mute" (some m)).db m.id = [] ∧
    ((handle_command env db "mute" (some m)).db.membersT.all (fun r => !(r.id == m.id) || r.muted)) = true ∧
    (∀ (d : DB) (cid : String), delete_conversation (delete_conversation d cid) cid = delete_conversation d cid) := by
  have hconv : get_conversations_for_member (set_muted ((get_conversations_for_member db m.id).foldl (fun d c => delete_conversation d c.id) db) m.id true) m.id = [] :=
    forMember_deleteAll db m.id
  refine ⟨?_, ?_, ?_, fun d cid => ?_⟩
  · rw [handle_mute_eq env db m]
    show handle_command env (set_muted ((get_conversations_for_member db m.id).foldl (fun d c => delete_conversation d c.id) db) m.id true) "mute" (some m) = _
    rw [handle_mute_eq, hconv]
    show HandleResult.mk (set_muted (set_muted ((get_conversations_for_member db m.id).foldl (fun d c => delete_conversation d c.id) db) m.id true) m.id true) _ _ = _
    rw [set_muted_idem]
  · rw [handle_mute_eq]
    exact hconv
  · rw [handle_mute_eq]
    exact set_muted_all_flagged _ _
  · refine DB.ext rfl rfl ?_ rfl
    show (d.conversationsT.filter (fun c => c.id != cid)).filter (fun c => c.id != cid) = d.conversationsT.filter (fun c => c.id != cid)
    rw [List.filter_filter]
    exact List.filter_congr (fun c _ => Bool.and_self _)

/-- C9: an `invite` whose invitee resolves to a member id already inside
`recentParticipants 50` is rejected with no state change and no
outbound message (the freshly minted id is assumed outside the window,
as a uuid is). -/
theorem C9_invite_recent_invitee_rejected (env : Env) (db : DB) (m : Member) (text : String)
    (rest : List String) (pn : ParsedPhone)
    (hsplit : pysplit (pystrip text) = "invite" :: rest)
    (hrest : rest ≠ [])
    (hp : env.parsePhone (String.intercalate " " rest) = some pn)
    (hcc : pn.countryCode = 1)
    (hfresh : (last_n db 50).contains env.freshMemberId = false)
    (hin : (last_n db 50).contains (resolvedInviteeId env db pn.e164) = true) :
    handle_command env db text (some m) = { db := db, reply := some "quack!\nthey\x27ve already been invited.", outbound := [] } := by
  have hroute : handle_command env db text (some m) = handle_invite env db m rest := by
    simp [handle_command, hsplit, show pylower "invite" = "invite" from rfl]
  rw [hroute, handle_invite]
  have hlen : ¬ rest.length < 1 := by
    cases rest with
    | nil => exact absurd rfl hrest
    | cons a l => simp
  rw [if_neg hlen]
  simp only [hp, hcc, bne_self_eq_false, Bool.false_eq_true, if_false]
  cases hres : get_by_phone_number db pn.e164 with
  | some r =>
    simp only [resolvedInviteeId, hres] at hin
    simp only [hres, Member.from_db, N_PEOPLE, hin, if_true]
  | none =>
    simp only [resolvedInviteeId, hres] at hin
    rw [hin] at hfresh
    simp at hfresh

/-- C9 witness: concrete rejection of an invite whose invitee is inside
the recency window, with the state unchanged. -/
theorem C9_witness :
    handle_command envInvite dbOneEdge "invite 555-0002" (some mA) = { db := dbOneEdge, reply := some "quack!\nthey\x27ve already been invited.", outbound := [] } := by
  refine C9_invite_recent_invitee_rejected envInvite dbOneEdge mA "invite 555-0002" ["555-0002"] { countryCode := 1, e164 := "+15550002" } rfl (by decide) rfl rfl (by decide) (by decide)

/-- C10: the reply of the `spot` command always ends with the warning
line (the source appends it under a literal `if True`), for every state
and member. -/
theorem C10_spot_warning_unconditional (env : Env) (db : DB) (m : Member) :
    ∃ positionText : String, (handle_command env db "spot" (some m)).reply = some (positionText ++ spot_warning) :=
  ⟨"you\x27re in spot #" ++ toString (spot_position db m.id) ++ " of " ++ toString (invite_count db) ++ ".", rfl⟩

end Duckpond
